import Mathlib

/-!
Verification development for the NFC Bridge Core (PN532 NFC bridge server).

The TypeScript sources are shallowly embedded:

* Byte buffers (`Buffer`) become `List Nat`, each element a byte value.
  A JavaScript string handed to `Buffer.from(s, 'utf-8')` is represented
  by the list of its UTF-8 bytes; all URL-abbreviation prefixes in the
  code are pure ASCII, and for an ASCII prefix `p`, `url.startsWith(p)`
  holds iff the UTF-8 bytes of `p` are a list prefix of the UTF-8 bytes
  of `url` (UTF-8 is self-synchronising and ASCII maps to single bytes),
  and `url.substring(p.length)` corresponds to dropping `p`'s bytes.
  So the byte-level embedding is faithful.
* A JavaScript `Buffer` element assignment `buf[i] = x` stores `x & 0xff`,
  i.e. `x % 256`; `(~x + 1) & 0xff` on a non-negative number equals
  `(256 - x % 256) % 256`.
* Stateful classes (`SessionManager`, `PN532Service`) become explicit
  state passing; the asynchronous worker of the session manager becomes
  a small-step transition relation whose atomic steps are the synchronous
  segments between `await` points of the code.
-/

/-- UTF-8 bytes of an ASCII string literal (every character below 0x80,
which holds for every string constant used by the embedded code). -/
def asciiBytes (s : String) : List Nat :=
  s.toList.map Char.toNat

namespace NdefUrlRecord

/-- The `prefixes` object of `NdefUrlRecord.encode`
(src/server/src/utils/ndef.ts), as the list of its entries in insertion
order, which is the order `Object.entries` yields for string keys. -/
def prefixes : List (List Nat × Nat) :=
  [ (asciiBytes "http://www.", 0x01),
    (asciiBytes "https://www.", 0x02),
    (asciiBytes "http://", 0x03),
    (asciiBytes "https://", 0x04),
    (asciiBytes "tel:", 0x05),
    (asciiBytes "mailto:", 0x06),
    (asciiBytes "ftp://anonymous:anonymous@", 0x07),
    (asciiBytes "ftp://ftp.", 0x08),
    (asciiBytes "ftps://", 0x09),
    (asciiBytes "sftp://", 0x0a),
    (asciiBytes "smb://", 0x0b),
    (asciiBytes "nfs://", 0x0c),
    (asciiBytes "ftp://", 0x0d),
    (asciiBytes "dav://", 0x0e),
    (asciiBytes "news:", 0x0f),
    (asciiBytes "telnet://", 0x10),
    (asciiBytes "imap:", 0x11),
    (asciiBytes "rtsp://", 0x12),
    (asciiBytes "urn:", 0x13),
    (asciiBytes "pop:", 0x14),
    (asciiBytes "sip:", 0x15),
    (asciiBytes "sips:", 0x16),
    (asciiBytes "tftp:", 0x17),
    (asciiBytes "btspp://", 0x18),
    (asciiBytes "btl2cap://", 0x19),
    (asciiBytes "btgoep://", 0x1a),
    (asciiBytes "tcpobex://", 0x1b),
    (asciiBytes "irdaobex://", 0x1c),
    (asciiBytes "file://", 0x1d),
    (asciiBytes "urn:epc:id:", 0x1e),
    (asciiBytes "urn:epc:tag:", 0x1f),
    (asciiBytes "urn:epc:pat:", 0x20),
    (asciiBytes "urn:epc:raw:", 0x21),
    (asciiBytes "urn:epc:", 0x22),
    (asciiBytes "urn:nfc:", 0x23) ]

/-- The prefix-matching loop of `NdefUrlRecord.encode`: iterate over the
entries in insertion order and `break` at the first prefix the URL starts
with; default `(0x00, url)`. Returns `(prefixCode, urlWithoutPrefix)`. -/
def findPrefix (url : List Nat) : Nat × List Nat :=
  match prefixes.find? (fun pc => pc.1.isPrefixOf url) with
  | some pc => (pc.2, url.drop pc.1.length)
  | none => (0x00, url)

/-- `NdefUrlRecord.encode` (src/server/src/utils/ndef.ts): the record is
`[flags 0xD1, typeLength 1, payloadLength & 0xff, 'U' 0x55, prefixCode,
url-remainder bytes]`.  The payload-length BYTE is `payloadLength % 256`
because a `Buffer` element assignment truncates; the payload itself is
written in full by `copy`.  There is no length check of any kind. -/
def encode (url : List Nat) : List Nat :=
  let pr := findPrefix url
  let payloadLength := 1 + pr.2.length
  [0xD1, 1, payloadLength % 256, 0x55] ++ (pr.1 % 256 :: pr.2)

/-- The `prefixMap` object of `NdefUrlRecord.decode`: only codes
0x01..0x04 are present; `prefixMap[code] || ''` falls back to the empty
string for 0x00 and for every other (missing) code. -/
def decodePrefixMap (c : Nat) : List Nat :=
  if c = 0x01 then asciiBytes "http://www."
  else if c = 0x02 then asciiBytes "https://www."
  else if c = 0x03 then asciiBytes "http://"
  else if c = 0x04 then asciiBytes "https://"
  else []

/-- `NdefUrlRecord.decode` (src/server/src/utils/ndef.ts).  Returns
`none` exactly where the code returns `null`: buffer shorter than 3,
declared lengths exceeding the buffer, or type field ≠ "U" (the UTF-8
string "U" arises on decoding exactly from the byte list [0x55]; any
other byte list decodes to a different string, invalid sequences turning
into replacement characters).  `payload[0]` on an empty payload is
`undefined` in JS, on which `prefixMap[...] || ''` yields `''`; this is
the `none` branch of the `head?` match. -/
def decode (b : List Nat) : Option (List Nat) :=
  if b.length < 3 then none
  else
    let typeLength := b.getD 1 0
    let payloadLength := b.getD 2 0
    if b.length < 3 + typeLength + payloadLength then none
    else if (b.drop 3).take typeLength ≠ [0x55] then none
    else
      let payload := (b.drop (3 + typeLength)).take payloadLength
      let urlPart := payload.drop 1
      match payload.head? with
      | some c => some (decodePrefixMap c ++ urlPart)
      | none => some urlPart

end NdefUrlRecord

example : NdefUrlRecord.encode (asciiBytes "https://example.com/r/abc") =
    [0xD1, 0x01, 0x12, 0x55, 0x04] ++ asciiBytes "example.com/r/abc" := by decide

example : NdefUrlRecord.encode (asciiBytes "tel:+821012345678") =
    [0xD1, 0x01, 0x0E, 0x55, 0x05] ++ asciiBytes "+821012345678" := by decide

example : NdefUrlRecord.decode (NdefUrlRecord.encode (asciiBytes "https://example.com/r/abc")) =
    some (asciiBytes "https://example.com/r/abc") := by decide

example : NdefUrlRecord.decode (NdefUrlRecord.encode (asciiBytes "tel:123")) =
    some (asciiBytes "123") := by decide

example : NdefUrlRecord.encode (asciiBytes "urn:epc:id:x") =
    [0xD1, 1, 9, 0x55, 0x13] ++ asciiBytes "epc:id:x" := by decide

namespace PN532Service

/-- `PN532Service.buildFrame` (src/server/src/services/pn532.ts):
`frameData = 0xD4 :: data`, `length = frameData.length`,
`lengthChecksum = (~length + 1) & 0xff`, `dataChecksum =
(~sum(frameData) + 1) & 0xff`, and the frame is
`00 00 FF length lengthChecksum frameData dataChecksum 00`.
On a non-negative JS number `x`, `(~x + 1) & 0xff = (256 - x % 256) % 256`,
and `Buffer.from([length])` stores `length % 256`. -/
def buildFrame (data : List Nat) : List Nat :=
  let frameData := 0xD4 :: data
  let length := frameData.length
  let lengthChecksum := (256 - length % 256) % 256
  let dataChecksum := (256 - frameData.sum % 256) % 256
  [0x00, 0x00, 0xFF, length % 256, lengthChecksum] ++ frameData ++ [dataChecksum, 0x00]

/-- The header-search loop of `PN532Service.extractResponseFrame`: the
first offset at which the bytes `00 00 FF` occur (the loop runs while
`offset < buffer.length - 2`, i.e. it can only report an offset with all
three bytes inside the buffer). -/
def findHeader : List Nat → Option Nat
  | 0x00 :: 0x00 :: 0xFF :: _ => some 0
  | _ :: rest => (findHeader rest).map (· + 1)
  | [] => none

/-- `PN532Service.extractResponseFrame` (src/server/src/services/pn532.ts).
The method mutates `this.buffer`; the embedding returns
`(extracted payload without TFI, buffer afterwards)`.
Branches, in source order: buffer shorter than 8 → wait; no `00 00 FF`
header → discard all but the last two bytes; garbage before the header is
trimmed; fewer than 5 bytes from the header → wait; length-checksum
failure → drop the 3 header bytes and recurse; frame not fully arrived →
wait; data-checksum failure → drop 3 and recurse; TFI ≠ 0xD5 (on an empty
data field `data[0]` is `undefined`, which also fails the `=== 0xD5`
comparison) → drop the whole frame (`totalLength` bytes) and recurse;
otherwise consume the frame and return `data` without its TFI byte. -/
def extractAux : Nat → List Nat → Option (List Nat) × List Nat
  | 0, b => (none, b)
  | fuel + 1, b =>
    if b.length < 8 then (none, b)
    else
      match findHeader b with
      | none =>
          if b.length > 2 then (none, b.drop (b.length - 2)) else (none, b)
      | some off =>
          let buf := b.drop off
          if buf.length < 5 then (none, buf)
          else
            let len := buf.getD 3 0
            let lcs := buf.getD 4 0
            if (len + lcs) % 256 ≠ 0 then
              extractAux fuel (buf.drop 3)
            else
              let totalLength := 5 + len + 2
              if buf.length < totalLength then (none, buf)
              else
                let data := (buf.drop 5).take len
                let dcs := buf.getD (5 + len) 0
                let calculated := (256 - data.sum % 256) % 256
                if calculated ≠ dcs then
                  extractAux fuel (buf.drop 3)
                else if data.head? ≠ some 0xD5 then
                  extractAux fuel (buf.drop totalLength)
                else
                  (some (data.drop 1), buf.drop totalLength)

/-- The entry point: every recursive call of the loop strictly shrinks the
buffer (by at least 3 bytes), so a fuel of `b.length` never runs out
(`extractAux_eq_of_le` below makes this exact). -/
def extractResponseFrame (b : List Nat) : Option (List Nat) × List Nat :=
  extractAux b.length b

end PN532Service

example : PN532Service.buildFrame [0x02] =
    [0x00, 0x00, 0xFF, 0x02, 0xFE, 0xD4, 0x02, 0x2A, 0x00] := by decide

example : PN532Service.extractResponseFrame
    [0x00, 0x00, 0xFF, 0x03, 0xFD, 0xD5, 0x03, 0x32, 0xF6, 0x00] =
    (some [0x03, 0x32], []) := by decide

/-! ## Session manager (src/server/src/services/session-manager.ts)

Times (`Date`) become `Nat` millisecond timestamps; `new Date() > d`
becomes `now > d`. The `Map<string, NfcSession>` becomes an association
list `List (String × NfcSession)`. -/

/-- The `status` field of `NfcSession` (src/server/src/types/index.ts). -/
inductive SessionStatus where
  | pending | ready | tagging | completed | expired | failed
deriving DecidableEq

/-- `NfcSession` (src/server/src/types/index.ts). -/
structure NfcSession where
  sessionId : String
  orderId : String
  receiptUrl : String
  status : SessionStatus
  createdAt : Nat
  expiresAt : Nat
  completedAt : Option Nat := none
  error : Option String := none
deriving DecidableEq

/-- `NfcSessionRequest` (src/server/src/types/index.ts). -/
structure NfcSessionRequest where
  orderId : String
  receiptUrl : Option String := none

namespace SessionManager

/-- Where one invocation of the queue loop (`processQueue`) stands:
`looping` means it is inside the `while` loop between sessions;
`working sid phase` means its `processSession` call is in flight for
session `sid`, suspended at the `await` after having set `ready`
(`phase = afterReady`) or after having set `tagging`
(`phase = afterTagging`).  Each synchronous segment of the event loop
is one atomic step. -/
inductive WorkerPhase where
  | afterReady | afterTagging
deriving DecidableEq

inductive Worker where
  | looping
  | working (sessionId : String) (phase : WorkerPhase)
deriving DecidableEq

/-- The mutable fields of `SessionManager` that the claims are about.
`workers` is the list of `processQueue` invocations currently alive:
`processQueue` returns early when `isProcessing` is set, so a second
loop can only start once the flag is false — which `shutdown()` makes
happen WITHOUT ending a loop suspended at an `await`, so after a
shutdown two loops can be alive at once. -/
structure SMState where
  sessions : List (String × NfcSession)
  queue : List String
  isProcessing : Bool
  workers : List Worker

/-- `SessionManager.updateSessionStatus`: if the id is present, set its
status, set `error` only when one is given, and stamp `completedAt` on
`completed`/`failed`; a missing id is a no-op. -/
def updateSessionStatus (sid : String) (status : SessionStatus)
    (error : Option String) (now : Nat)
    (sessions : List (String × NfcSession)) : List (String × NfcSession) :=
  sessions.map fun p =>
    if p.1 = sid then
      (p.1, { p.2 with
              status := status,
              error := match error with | some e => some e | none => p.2.error,
              completedAt :=
                if status = .completed ∨ status = .failed then some now
                else p.2.completedAt })
    else p

/-- `SessionManager.createSession`: allocates the id (a fresh UUID, here
passed in as `sid`), stamps `created_at`/`expires_at`, and — in the code
as it stands — sets `receiptUrl` to the constant `'https://abc.com'`
(the line using `request.receiptUrl` is commented out).  Inserts into the
map, pushes onto the queue, returns the session. -/
def createSession (st : SMState) (request : NfcSessionRequest)
    (sid : String) (now sessionTimeoutMs : Nat) : SMState × NfcSession :=
  let session : NfcSession :=
    { sessionId := sid
      orderId := request.orderId
      receiptUrl := "https://abc.com"
      status := .pending
      createdAt := now
      expiresAt := now + sessionTimeoutMs }
  ({ st with sessions := st.sessions ++ [(sid, session)]
             queue := st.queue ++ [sid] },
   session)

/-- `SessionManager.cleanupExpiredSessions`: delete exactly the sessions
with `now > expiresAt` and a terminal (`completed`/`failed`/`expired`)
status. -/
def cleanupExpiredSessions (now : Nat)
    (sessions : List (String × NfcSession)) : List (String × NfcSession) :=
  sessions.filter fun p =>
    !(decide (now > p.2.expiresAt) &&
      (p.2.status = SessionStatus.completed || p.2.status = SessionStatus.failed ||
       p.2.status = SessionStatus.expired))

/-- `SessionManager.shutdown`: `sessions.clear()`, `queue = []`,
`isProcessing = false`.  The flag is merely reset: a `processQueue`
loop suspended at an `await` is NOT terminated and keeps running —
`workers` is unchanged.  (This is what lets a later `createSession`
start a second concurrent loop.) -/
def shutdown (st : SMState) : SMState :=
  { sessions := [], queue := [], isProcessing := false, workers := st.workers }

/-- One atomic step of the session manager other than `shutdown()`: a
synchronous segment of the event loop between `await` points.
Interleaving of HTTP handlers (`createSession`), the reaper interval and
the queue loops is arbitrary; any live loop (any element of `workers`)
may resume at its suspension point. -/
inductive StepNS : SMState → SMState → Prop where
  /-- An HTTP create request (no freshness of the id is needed for the
  invariants proved here). -/
  | create (st : SMState) (request : NfcSessionRequest) (sid : String)
      (now sessionTimeoutMs : Nat) :
      StepNS st (createSession st request sid now sessionTimeoutMs).1
  /-- `processQueue` entry passing the guard: `isProcessing` is false and
  the queue is non-empty, so set `isProcessing = true` and a new loop
  joins the live ones. -/
  | beginLoop (st : SMState) : st.isProcessing = false → st.queue ≠ [] →
      StepNS st { st with isProcessing := true, workers := .looping :: st.workers }
  /-- A loop finishes (its `while` exits, or the `catch` fires); the
  `finally` clears `isProcessing` — even if another loop is still
  alive. -/
  | endLoop (st : SMState) (w₁ w₂ : List Worker) :
      st.workers = w₁ ++ .looping :: w₂ →
      StepNS st { st with isProcessing := false, workers := w₁ ++ w₂ }
  /-- A loop iterates, queue head not in the map: warn and continue. -/
  | popMissing (st : SMState) (sid : String) (rest : List String)
      (w₁ w₂ : List Worker) :
      st.workers = w₁ ++ .looping :: w₂ → st.queue = sid :: rest →
      (st.sessions.find? (fun p => p.1 = sid)) = none →
      StepNS st { st with queue := rest }
  /-- A loop iterates, queue head already past `expiresAt`: mark it
  `expired` and continue. -/
  | popExpired (st : SMState) (sid : String) (rest : List String)
      (s : NfcSession) (now : Nat) (w₁ w₂ : List Worker) :
      st.workers = w₁ ++ .looping :: w₂ → st.queue = sid :: rest →
      (st.sessions.find? (fun p => p.1 = sid)) = some (sid, s) →
      now > s.expiresAt →
      StepNS st { st with queue := rest,
                          sessions := updateSessionStatus sid .expired none now st.sessions }
  /-- A loop iterates on a viable queue head: `processSession` begins,
  marks it `ready`, encodes the NDEF message, and suspends at
  `pn532.initAsTarget`. -/
  | popStart (st : SMState) (sid : String) (rest : List String)
      (s : NfcSession) (now : Nat) (w₁ w₂ : List Worker) :
      st.workers = w₁ ++ .looping :: w₂ → st.queue = sid :: rest →
      (st.sessions.find? (fun p => p.1 = sid)) = some (sid, s) →
      ¬ now > s.expiresAt →
      StepNS st { st with queue := rest,
                          sessions := updateSessionStatus sid .ready none now st.sessions,
                          workers := w₁ ++ .working sid .afterReady :: w₂ }
  /-- `initAsTarget` returned false or threw: the `catch` marks the
  session `failed` (with the error message) and `processSession` returns
  to its loop (after `reinitialize`, which touches no session). -/
  | initFail (st : SMState) (sid : String) (msg : String) (now : Nat)
      (w₁ w₂ : List Worker) :
      st.workers = w₁ ++ .working sid .afterReady :: w₂ →
      StepNS st { st with sessions := updateSessionStatus sid .failed (some msg) now st.sessions,
                          workers := w₁ ++ .looping :: w₂ }
  /-- `initAsTarget` succeeded: mark `tagging` and suspend at
  `pn532.waitForTag`. -/
  | initOk (st : SMState) (sid : String) (now : Nat) (w₁ w₂ : List Worker) :
      st.workers = w₁ ++ .working sid .afterReady :: w₂ →
      StepNS st { st with sessions := updateSessionStatus sid .tagging none now st.sessions,
                          workers := w₁ ++ .working sid .afterTagging :: w₂ }
  /-- `waitForTag` returned true: mark `completed`, back to the loop. -/
  | tagOk (st : SMState) (sid : String) (now : Nat) (w₁ w₂ : List Worker) :
      st.workers = w₁ ++ .working sid .afterTagging :: w₂ →
      StepNS st { st with sessions := updateSessionStatus sid .completed none now st.sessions,
                          workers := w₁ ++ .looping :: w₂ }
  /-- `waitForTag` timed out: mark `expired` with `'Tagging timeout'`. -/
  | tagTimeout (st : SMState) (sid : String) (now : Nat) (w₁ w₂ : List Worker) :
      st.workers = w₁ ++ .working sid .afterTagging :: w₂ →
      StepNS st { st with sessions := updateSessionStatus sid .expired (some "Tagging timeout") now st.sessions,
                          workers := w₁ ++ .looping :: w₂ }
  /-- An exception after `tagging`: the `catch` marks the session
  `failed`. -/
  | tagFail (st : SMState) (sid : String) (msg : String) (now : Nat)
      (w₁ w₂ : List Worker) :
      st.workers = w₁ ++ .working sid .afterTagging :: w₂ →
      StepNS st { st with sessions := updateSessionStatus sid .failed (some msg) now st.sessions,
                          workers := w₁ ++ .looping :: w₂ }
  /-- The 5-second reaper interval fires. -/
  | reap (st : SMState) (now : Nat) :
      StepNS st { st with sessions := cleanupExpiredSessions now st.sessions }

/-- Every atomic step of the session manager: the shutdown-free ones,
plus `shutdown()`. -/
inductive Step : SMState → SMState → Prop where
  | ns {st st' : SMState} : StepNS st st' → Step st st'
  | shutdownStep (st : SMState) : Step st (shutdown st)

/-- A freshly constructed `SessionManager`: empty map, empty queue,
`isProcessing = false`, no live loop. -/
def initState : SMState := ⟨[], [], false, []⟩

/-- States reachable from a fresh `SessionManager`. -/
inductive Reachable : SMState → Prop where
  | init : Reachable initState
  | step {st st' : SMState} : Reachable st → Step st st' → Reachable st'

/-- States reachable from a fresh `SessionManager` in executions that
never invoke `shutdown()`. -/
inductive ReachableNoShutdown : SMState → Prop where
  | init : ReachableNoShutdown initState
  | step {st st' : SMState} : ReachableNoShutdown st → StepNS st st' →
      ReachableNoShutdown st'

/-- A session counts as active for the at-most-one invariant iff its
status is `ready` or `tagging`. -/
def activeStatus (s : SessionStatus) : Prop :=
  s = .ready ∨ s = .tagging

instance (s : SessionStatus) : Decidable (activeStatus s) := by
  unfold activeStatus; infer_instance

/-- Inductive invariant of shutdown-free executions: a cleared
`isProcessing` flag means no loop is alive, at most one loop is alive,
and any `ready`/`tagging` session of the map is held by a live loop. -/
def Inv (st : SMState) : Prop :=
  (st.isProcessing = false → st.workers = []) ∧
  st.workers.length ≤ 1 ∧
  (∀ p ∈ st.sessions, activeStatus p.2.status →
    ∃ ph, Worker.working p.1 ph ∈ st.workers)

lemma mem_updateSessionStatus {p : String × NfcSession} {sid : String}
    {status : SessionStatus} {error : Option String} {now : Nat}
    {ss : List (String × NfcSession)}
    (h : p ∈ updateSessionStatus sid status error now ss) :
    (p.1 = sid ∧ p.2.status = status) ∨ (p ∈ ss ∧ p.1 ≠ sid) := by
  simp only [updateSessionStatus, List.mem_map] at h
  obtain ⟨q, hq, rfl⟩ := h
  by_cases hqs : q.1 = sid
  · left; simp [hqs]
  · right; simp [hqs]; exact hq

lemma split_nil_nil (w₁ w₂ : List Worker) (x : Worker)
    (hlen : (w₁ ++ x :: w₂).length ≤ 1) : w₁ = [] ∧ w₂ = [] := by
  simp only [List.length_append, List.length_cons] at hlen
  exact ⟨List.eq_nil_of_length_eq_zero (by omega),
         List.eq_nil_of_length_eq_zero (by omega)⟩

lemma inv_init : Inv initState := by
  refine ⟨fun _ => rfl, by simp [initState], ?_⟩
  intro p hp
  simp [initState] at hp

lemma inv_preserved {st st' : SMState} (hstep : StepNS st st') (hinv : Inv st) :
    Inv st' := by
  obtain ⟨hA, hB, hC⟩ := hinv
  cases hstep with
  | create request sid now sessionTimeoutMs =>
      refine ⟨hA, hB, ?_⟩
      intro p hp ha
      simp only [createSession, List.mem_append, List.mem_singleton] at hp
      rcases hp with hp | hp
      · exact hC p hp ha
      · subst hp
        rcases ha with ha | ha <;> simp at ha
  | beginLoop hproc hq =>
      refine ⟨?_, ?_, ?_⟩
      · intro h
        simp at h
      · have hnil := hA hproc
        simp [hnil]
      · intro p hp ha
        obtain ⟨ph, hph⟩ := hC p hp ha
        rw [hA hproc] at hph
        simp at hph
  | endLoop w₁ w₂ hw =>
      obtain ⟨h1, h2⟩ := split_nil_nil w₁ w₂ .looping (hw ▸ hB)
      subst h1; subst h2
      refine ⟨fun _ => rfl, by simp, ?_⟩
      intro p hp ha
      obtain ⟨ph, hph⟩ := hC p hp ha
      rw [hw] at hph
      simp at hph
  | popMissing sid rest w₁ w₂ hw hq hf =>
      exact ⟨hA, hB, fun p hp ha => hC p hp ha⟩
  | popExpired sid rest s now w₁ w₂ hw hq hf hexp =>
      obtain ⟨h1, h2⟩ := split_nil_nil w₁ w₂ .looping (hw ▸ hB)
      subst h1; subst h2
      refine ⟨hA, hB, ?_⟩
      intro p hp ha
      dsimp only at hp
      rcases mem_updateSessionStatus hp with ⟨h1, h2⟩ | ⟨h1, h2⟩
      · rw [h2] at ha
        rcases ha with ha | ha <;> simp at ha
      · obtain ⟨ph, hph⟩ := hC p h1 ha
        rw [hw] at hph
        simp at hph
  | popStart sid rest s now w₁ w₂ hw hq hf hexp =>
      obtain ⟨h1, h2⟩ := split_nil_nil w₁ w₂ .looping (hw ▸ hB)
      subst h1; subst h2
      refine ⟨?_, by simp, ?_⟩
      · intro h
        have hnil := hA h
        rw [hnil] at hw
        simp at hw
      · intro p hp ha
        dsimp only at hp
        rcases mem_updateSessionStatus hp with ⟨h1, h2⟩ | ⟨h1, h2⟩
        · exact ⟨.afterReady, by rw [h1]; simp⟩
        · obtain ⟨ph, hph⟩ := hC p h1 ha
          rw [hw] at hph
          simp at hph
  | initFail sid msg now w₁ w₂ hw =>
      obtain ⟨h1, h2⟩ := split_nil_nil w₁ w₂ (.working sid .afterReady) (hw ▸ hB)
      subst h1; subst h2
      refine ⟨?_, by simp, ?_⟩
      · intro h
        have hnil := hA h
        rw [hnil] at hw
        simp at hw
      · intro p hp ha
        dsimp only at hp
        rcases mem_updateSessionStatus hp with ⟨h1, h2⟩ | ⟨h1, h2⟩
        · rw [h2] at ha
          rcases ha with ha | ha <;> simp at ha
        · obtain ⟨ph, hph⟩ := hC p h1 ha
          rw [hw] at hph
          simp only [List.nil_append, List.mem_singleton, Worker.working.injEq] at hph
          exact absurd hph.1 h2
  | initOk sid now w₁ w₂ hw =>
      obtain ⟨h1, h2⟩ := split_nil_nil w₁ w₂ (.working sid .afterReady) (hw ▸ hB)
      subst h1; subst h2
      refine ⟨?_, by simp, ?_⟩
      · intro h
        have hnil := hA h
        rw [hnil] at hw
        simp at hw
      · intro p hp ha
        dsimp only at hp
        rcases mem_updateSessionStatus hp with ⟨h1, h2⟩ | ⟨h1, h2⟩
        · exact ⟨.afterTagging, by rw [h1]; simp⟩
        · obtain ⟨ph, hph⟩ := hC p h1 ha
          rw [hw] at hph
          simp only [List.nil_append, List.mem_singleton, Worker.working.injEq] at hph
          exact absurd hph.1 h2
  | tagOk sid now w₁ w₂ hw =>
      obtain ⟨h1, h2⟩ := split_nil_nil w₁ w₂ (.working sid .afterTagging) (hw ▸ hB)
      subst h1; subst h2
      refine ⟨?_, by simp, ?_⟩
      · intro h
        have hnil := hA h
        rw [hnil] at hw
        simp at hw
      · intro p hp ha
        dsimp only at hp
        rcases mem_updateSessionStatus hp with ⟨h1, h2⟩ | ⟨h1, h2⟩
        · rw [h2] at ha
          rcases ha with ha | ha <;> simp at ha
        · obtain ⟨ph, hph⟩ := hC p h1 ha
          rw [hw] at hph
          simp only [List.nil_append, List.mem_singleton, Worker.working.injEq] at hph
          exact absurd hph.1 h2
  | tagTimeout sid now w₁ w₂ hw =>
      obtain ⟨h1, h2⟩ := split_nil_nil w₁ w₂ (.working sid .afterTagging) (hw ▸ hB)
      subst h1; subst h2
      refine ⟨?_, by simp, ?_⟩
      · intro h
        have hnil := hA h
        rw [hnil] at hw
        simp at hw
      · intro p hp ha
        dsimp only at hp
        rcases mem_updateSessionStatus hp with ⟨h1, h2⟩ | ⟨h1, h2⟩
        · rw [h2] at ha
          rcases ha with ha | ha <;> simp at ha
        · obtain ⟨ph, hph⟩ := hC p h1 ha
          rw [hw] at hph
          simp only [List.nil_append, List.mem_singleton, Worker.working.injEq] at hph
          exact absurd hph.1 h2
  | tagFail sid msg now w₁ w₂ hw =>
      obtain ⟨h1, h2⟩ := split_nil_nil w₁ w₂ (.working sid .afterTagging) (hw ▸ hB)
      subst h1; subst h2
      refine ⟨?_, by simp, ?_⟩
      · intro h
        have hnil := hA h
        rw [hnil] at hw
        simp at hw
      · intro p hp ha
        dsimp only at hp
        rcases mem_updateSessionStatus hp with ⟨h1, h2⟩ | ⟨h1, h2⟩
        · rw [h2] at ha
          rcases ha with ha | ha <;> simp at ha
        · obtain ⟨ph, hph⟩ := hC p h1 ha
          rw [hw] at hph
          simp only [List.nil_append, List.mem_singleton, Worker.working.injEq] at hph
          exact absurd hph.1 h2
  | reap now =>
      refine ⟨hA, hB, ?_⟩
      intro p hp ha
      exact hC p (List.mem_of_mem_filter hp) ha

lemma reachable_inv {st : SMState} (h : ReachableNoShutdown st) : Inv st := by
  induction h with
  | init => exact inv_init
  | step _ hstep ih => exact inv_preserved hstep ih

lemma mem_eq_of_length_le_one {α : Type} {a b : α} {l : List α}
    (ha : a ∈ l) (hb : b ∈ l) (h : l.length ≤ 1) : a = b := by
  cases l with
  | nil => simp at ha
  | cons x xs =>
      simp only [List.length_cons] at h
      have hx : xs = [] := List.eq_nil_of_length_eq_zero (by omega)
      subst hx
      simp only [List.mem_singleton] at ha hb
      rw [ha, hb]

end SessionManager

/-! ## Claim theorems -/

lemma getD_at_concat (l : List Nat) (x : Nat) (r : List Nat) :
    (l ++ x :: r).getD l.length 0 = x := by
  induction l with
  | nil => rfl
  | cons a t ih => simpa using ih

/-- C6: every information frame built by `buildFrame` satisfies both
checksum equations — the length byte plus the length checksum vanish
mod 256, and the sum of `TFI || payload` plus the data checksum vanishes
mod 256 — and the frame built for the `GetFirmwareVersion` command
(payload `[0x02]`) is exactly `00 00 FF 02 FE D4 02 2A 00`. -/
theorem c6_buildFrame_checksums :
    (∀ data : List Nat,
        ((PN532Service.buildFrame data).getD 3 0 +
         (PN532Service.buildFrame data).getD 4 0) % 256 = 0 ∧
        ((0xD4 :: data).sum +
         (PN532Service.buildFrame data).getD (5 + (0xD4 :: data).length) 0) % 256 = 0) ∧
    PN532Service.buildFrame [0x02] =
      [0x00, 0x00, 0xFF, 0x02, 0xFE, 0xD4, 0x02, 0x2A, 0x00] := by
  constructor
  · intro data
    constructor
    · simp only [PN532Service.buildFrame, List.getD, List.cons_append, List.nil_append]
      simp only [List.get?_cons_succ, List.get?_cons_zero, Option.getD_some]
      omega
    · simp only [PN532Service.buildFrame]
      rw [show 5 + (0xD4 :: data).length =
            ([0x00, 0x00, 0xFF, ((0xD4 :: data).length % 256),
              ((256 - (0xD4 :: data).length % 256) % 256)] ++ 0xD4 :: data).length from by
          simp
          omega]
      rw [getD_at_concat]
      omega
  · decide

/-- C8: the reaper removes a session iff it is terminal (`completed`,
`failed` or `expired`) and its `expires_at` is strictly in the past;
membership before the sweep given, removal is equivalent to that
conjunction, so no non-terminal (or unexpired) session is ever removed
and every removed session satisfies both conditions. -/
theorem c8_reaper_removes_exactly_terminal_expired (now : Nat)
    (ss : List (String × NfcSession)) (p : String × NfcSession) (hp : p ∈ ss) :
    p ∉ SessionManager.cleanupExpiredSessions now ss ↔
      (now > p.2.expiresAt ∧
       (p.2.status = .completed ∨ p.2.status = .failed ∨ p.2.status = .expired)) := by
  simp [SessionManager.cleanupExpiredSessions, List.mem_filter, hp]
  tauto

/-- C10: `NdefUrlRecord.decode` is a total function (it is defined for
every byte list and, being a Lean function, never throws); it returns a
result (`isSome`) exactly when the buffer has at least 3 bytes, the
declared type and payload lengths fit inside the buffer, and the type
field is "U" (`[0x55]`); in every other case it returns `none`. -/
theorem c10_decode_total_characterisation (b : List Nat) :
    (NdefUrlRecord.decode b).isSome ↔
      (3 ≤ b.length ∧ 3 + b.getD 1 0 + b.getD 2 0 ≤ b.length ∧
       (b.drop 3).take (b.getD 1 0) = [0x55]) := by
  unfold NdefUrlRecord.decode
  by_cases h1 : b.length < 3
  · simp only [h1, if_true, Option.isSome_none]
    constructor
    · intro h; cases h
    · intro ⟨h, _⟩; omega
  · simp only [h1, if_false]
    by_cases h2 : b.length < 3 + b.getD 1 0 + b.getD 2 0
    · simp only [h2, if_true, Option.isSome_none]
      constructor
      · intro h; cases h
      · intro ⟨_, h, _⟩; omega
    · by_cases h3 : (b.drop 3).take (b.getD 1 0) = [0x55]
      · simp only [h2, if_false, h3, ne_eq, not_true_eq_false, if_false]
        cases hh : ((b.drop (3 + b.getD 1 0)).take (b.getD 2 0)).head? <;>
          simp only [hh, Option.isSome_some, true_iff] <;>
          exact ⟨by omega, by omega, trivial⟩
      · simp only [h2, if_false, h3, ne_eq, not_false_eq_true, if_true,
          Option.isSome_none]
        constructor
        · intro h; cases h
        · intro ⟨_, _, h⟩; exact h.elim

set_option maxRecDepth 100000 in
/-- C2 (the claim is wrong about the code): `NdefUrlRecord.encode` has no
length check and no `UrlTooLong` failure path at all.  For the URL
`'https://' ++ 255 × 'a'` the remainder after prefix stripping is 255
bytes, so the payload length is 256 and does not fit in one byte; the
encoder nevertheless returns a record whose payload-length byte has
silently wrapped to `(1 + 255) % 256 = 0`, and `processSession` passes
this corrupt record straight to `pn532.initAsTarget`. -/
theorem c2_no_urltoolong_length_byte_wraps :
    NdefUrlRecord.encode (asciiBytes "https://" ++ List.replicate 255 97) =
      [0xD1, 1, 0, 0x55, 0x04] ++ List.replicate 255 97 ∧
    1 + (List.replicate 255 (97 : Nat)).length = 256 ∧ ¬ 256 ≤ 255 := by
  refine ⟨?_, by simp, by omega⟩
  decide

/-- C5 (amended): `createSession` stores the constant
`'https://abc.com'` as the session's `receiptUrl` for every request —
the caller-supplied URL is ignored, and so is the deterministic default
(that line is commented out in the code).  The created session is
inserted into the session map. -/
theorem c5_receipt_url_always_constant (st : SessionManager.SMState)
    (request : NfcSessionRequest) (sid : String) (now tm : Nat) :
    ((SessionManager.createSession st request sid now tm).2).receiptUrl =
      "https://abc.com" ∧
    (sid, (SessionManager.createSession st request sid now tm).2) ∈
      (SessionManager.createSession st request sid now tm).1.sessions := by
  exact ⟨rfl, by simp [SessionManager.createSession]⟩

/-- C5 counterexample: a request that supplies
`receipt_url = 'https://x.example/r/1'` gets a session whose stored URL
is the constant `'https://abc.com'`, not the caller's URL. -/
theorem c5_counterexample :
    ((SessionManager.createSession ⟨[], [], false, []⟩
        ⟨"order-1", some "https://x.example/r/1"⟩ "s1" 0 30000).2).receiptUrl =
      "https://abc.com" ∧
    ("https://abc.com" : String) ≠ "https://x.example/r/1" := by
  exact ⟨rfl, by decide⟩

/-- C9 (amended): `shutdown()` empties the session map and the queue,
but it does not disable session creation: a subsequent `createSession`
call inserts a fresh, live (`pending`) session into the map exactly as
before the shutdown. -/
theorem c9_shutdown_clears_but_accepts_new (st : SessionManager.SMState)
    (request : NfcSessionRequest) (sid : String) (now tm : Nat) :
    (SessionManager.shutdown st).sessions = [] ∧
    (SessionManager.shutdown st).queue = [] ∧
    (SessionManager.createSession (SessionManager.shutdown st) request sid now tm).1.sessions =
      [(sid, (SessionManager.createSession (SessionManager.shutdown st) request sid now tm).2)] ∧
    ((SessionManager.createSession (SessionManager.shutdown st) request sid now tm).2).status =
      SessionStatus.pending := by
  exact ⟨rfl, rfl, by simp [SessionManager.createSession, SessionManager.shutdown], rfl⟩

/-- C9 counterexample: after `shutdown()`, a `createSession` call still
produces a live session — the map afterwards holds one session and its
status is `pending`, not a terminal status. -/
theorem c9_counterexample :
    (SessionManager.createSession (SessionManager.shutdown ⟨[], [], false, []⟩)
        ⟨"order-2", none⟩ "s2" 5 30000).1.sessions ≠ [] ∧
    ((SessionManager.createSession (SessionManager.shutdown ⟨[], [], false, []⟩)
        ⟨"order-2", none⟩ "s2" 5 30000).2).status = SessionStatus.pending := by
  exact ⟨by simp [SessionManager.createSession, SessionManager.shutdown], rfl⟩

/-- C1 (amended): in every state reachable from a fresh
`SessionManager` WITHOUT `shutdown()` ever being invoked, any two
distinct sessions of the map cannot both be in `{ready, tagging}`: the
`isProcessing` guard then admits at most one `processQueue` loop, which
drives one session at a time through `ready`/`tagging` to a terminal
status before touching the next.  (The restriction is necessary:
`shutdown()` resets `isProcessing` without terminating a loop suspended
at an `await`, after which a later `createSession` starts a second
concurrent loop and two sessions can be `ready` at once — see the
counterexample.) -/
theorem c1_at_most_one_ready_or_tagging (st : SessionManager.SMState)
    (h : SessionManager.ReachableNoShutdown st) (p q : String × NfcSession)
    (hp : p ∈ st.sessions) (hq : q ∈ st.sessions) (hne : p.1 ≠ q.1)
    (hpa : SessionManager.activeStatus p.2.status) :
    ¬ SessionManager.activeStatus q.2.status := by
  intro hqa
  obtain ⟨_, hB, hC⟩ := SessionManager.reachable_inv h
  obtain ⟨ph1, hw1⟩ := hC p hp hpa
  obtain ⟨ph2, hw2⟩ := hC q hq hqa
  have heq := SessionManager.mem_eq_of_length_le_one hw1 hw2 hB
  simp only [SessionManager.Worker.working.injEq] at heq
  exact hne heq.1

/-- A concrete shutdown-free reachable state for the C1 witness:
sessions "a" (just marked `ready` by the loop) and "b" (still `pending`
in the queue). -/
def c1WitnessSessionA : NfcSession :=
  ⟨"a", "o1", "https://abc.com", .pending, 0, 30000, none, none⟩

def c1WitnessSessionB : NfcSession :=
  ⟨"b", "o2", "https://abc.com", .pending, 0, 30000, none, none⟩

def c1WitnessState : SessionManager.SMState :=
  { sessions := SessionManager.updateSessionStatus "a" .ready none 0
      [("a", c1WitnessSessionA), ("b", c1WitnessSessionB)]
    queue := ["b"]
    isProcessing := true
    workers := [.working "a" .afterReady] }

lemma c1WitnessState_reachable :
    SessionManager.ReachableNoShutdown c1WitnessState := by
  have r1 : SessionManager.ReachableNoShutdown
      (SessionManager.createSession SessionManager.initState
        ⟨"o1", none⟩ "a" 0 30000).1 :=
    .step .init (.create _ _ _ _ _)
  have r2 : SessionManager.ReachableNoShutdown
      (SessionManager.createSession
        (SessionManager.createSession SessionManager.initState
          ⟨"o1", none⟩ "a" 0 30000).1
        ⟨"o2", none⟩ "b" 0 30000).1 :=
    .step r1 (.create _ _ _ _ _)
  have r3 : SessionManager.ReachableNoShutdown
      (⟨[("a", c1WitnessSessionA), ("b", c1WitnessSessionB)], ["a", "b"], true,
        [.looping]⟩ : SessionManager.SMState) :=
    .step r2 (.beginLoop _ rfl (by decide))
  have r4 : SessionManager.ReachableNoShutdown c1WitnessState :=
    .step r3 (.popStart _ "a" ["b"] c1WitnessSessionA 0 [] [] rfl rfl
      (by decide) (by decide))
  exact r4

/-- C1 witness: in the concrete shutdown-free reachable state where the
loop just marked session "a" `ready` while "b" is still queued, the
theorem yields that "b" is not in `{ready, tagging}`. -/
theorem c1_witness :
    ¬ SessionManager.activeStatus
        (("b", c1WitnessSessionB) : String × NfcSession).2.status := by
  refine c1_at_most_one_ready_or_tagging c1WitnessState c1WitnessState_reachable
    ("a", { c1WitnessSessionA with status := .ready }) ("b", c1WitnessSessionB)
    ?_ ?_ (by decide) (by decide)
  · decide
  · decide

/-- The two sessions left simultaneously `ready` by the shutdown
schedule of the C1 counterexample. -/
def c1BadSessionB : NfcSession :=
  ⟨"b", "o2", "https://abc.com", .ready, 0, 30000, none, none⟩

def c1BadSessionC : NfcSession :=
  ⟨"c", "o3", "https://abc.com", .ready, 0, 30000, none, none⟩

/-- The state reached by: create "a"; loop W1 starts and marks "a"
`ready`, suspending at `initAsTarget`; `shutdown()` (clears the map,
resets `isProcessing`, leaves W1 suspended); create "b"; loop W2 starts
(the guard sees `isProcessing === false`) and marks "b" `ready`;
create "c"; W1 resumes, its `failed` update of the deleted "a" is a
no-op, and its `while` loop pops "c" from the refilled queue and marks
it `ready`.  Both "b" and "c" are now `ready`. -/
def c1BadState : SessionManager.SMState :=
  { sessions := [("b", c1BadSessionB), ("c", c1BadSessionC)]
    queue := []
    isProcessing := true
    workers := [.working "b" .afterReady, .working "c" .afterReady] }

lemma c1BadState_reachable : SessionManager.Reachable c1BadState := by
  -- create "a"
  have t1 : SessionManager.Reachable
      (⟨[("a", ⟨"a", "o1", "https://abc.com", .pending, 0, 30000, none, none⟩)],
        ["a"], false, []⟩ : SessionManager.SMState) :=
    .step .init (.ns (.create _ ⟨"o1", none⟩ "a" 0 30000))
  -- W1 starts
  have t2 : SessionManager.Reachable
      (⟨[("a", ⟨"a", "o1", "https://abc.com", .pending, 0, 30000, none, none⟩)],
        ["a"], true, [.looping]⟩ : SessionManager.SMState) :=
    .step t1 (.ns (.beginLoop _ rfl (by decide)))
  -- W1 pops "a", marks it ready, suspends at initAsTarget
  have t3 : SessionManager.Reachable
      (⟨[("a", ⟨"a", "o1", "https://abc.com", .ready, 0, 30000, none, none⟩)],
        [], true, [.working "a" .afterReady]⟩ : SessionManager.SMState) :=
    .step t2 (.ns (.popStart _ "a" []
      ⟨"a", "o1", "https://abc.com", .pending, 0, 30000, none, none⟩ 0 [] []
      rfl rfl (by decide) (by decide)))
  -- shutdown(): map and queue cleared, isProcessing reset, W1 still alive
  have t4 : SessionManager.Reachable
      (⟨[], [], false, [.working "a" .afterReady]⟩ : SessionManager.SMState) :=
    .step t3 (.shutdownStep _)
  -- create "b"
  have t5 : SessionManager.Reachable
      (⟨[("b", ⟨"b", "o2", "https://abc.com", .pending, 0, 30000, none, none⟩)],
        ["b"], false, [.working "a" .afterReady]⟩ : SessionManager.SMState) :=
    .step t4 (.ns (.create _ ⟨"o2", none⟩ "b" 0 30000))
  -- W2 starts: the guard sees isProcessing === false
  have t6 : SessionManager.Reachable
      (⟨[("b", ⟨"b", "o2", "https://abc.com", .pending, 0, 30000, none, none⟩)],
        ["b"], true, [.looping, .working "a" .afterReady]⟩ :
        SessionManager.SMState) :=
    .step t5 (.ns (.beginLoop _ rfl (by decide)))
  -- W2 pops "b", marks it ready, suspends
  have t7 : SessionManager.Reachable
      (⟨[("b", c1BadSessionB)], [], true,
        [.working "b" .afterReady, .working "a" .afterReady]⟩ :
        SessionManager.SMState) :=
    .step t6 (.ns (.popStart _ "b" []
      ⟨"b", "o2", "https://abc.com", .pending, 0, 30000, none, none⟩ 0
      [] [.working "a" .afterReady] rfl rfl (by decide) (by decide)))
  -- create "c"
  have t8 : SessionManager.Reachable
      (⟨[("b", c1BadSessionB),
         ("c", ⟨"c", "o3", "https://abc.com", .pending, 0, 30000, none, none⟩)],
        ["c"], true, [.working "b" .afterReady, .working "a" .afterReady]⟩ :
        SessionManager.SMState) :=
    .step t7 (.ns (.create _ ⟨"o3", none⟩ "c" 0 30000))
  -- W1 resumes; its update of the deleted "a" is a no-op on the map
  have t9 : SessionManager.Reachable
      (⟨[("b", c1BadSessionB),
         ("c", ⟨"c", "o3", "https://abc.com", .pending, 0, 30000, none, none⟩)],
        ["c"], true, [.working "b" .afterReady, .looping]⟩ :
        SessionManager.SMState) :=
    .step t8 (.ns (.initFail _ "a" "Failed to initialize PN532 as target" 0
      [.working "b" .afterReady] [] rfl))
  -- W1's while loop pops the NEW entry "c" and marks it ready
  have t10 : SessionManager.Reachable c1BadState :=
    .step t9 (.ns (.popStart _ "c" []
      ⟨"c", "o3", "https://abc.com", .pending, 0, 30000, none, none⟩ 0
      [.working "b" .afterReady] [] rfl rfl (by decide) (by decide)))
  exact t10

/-- C1 counterexample: the original claim is false of the program.  The
schedule create "a" → loop W1 marks "a" `ready` and suspends →
`shutdown()` → create "b" → second loop W2 marks "b" `ready` and
suspends → create "c" → W1 resumes and pops "c", marking it `ready`,
reaches a state with the two distinct sessions "b" and "c" both
`ready` at the same instant. -/
theorem c1_counterexample :
    SessionManager.Reachable c1BadState ∧
    ("b", c1BadSessionB) ∈ c1BadState.sessions ∧
    ("c", c1BadSessionC) ∈ c1BadState.sessions ∧
    ("b" : String) ≠ "c" ∧
    SessionManager.activeStatus c1BadSessionB.status ∧
    SessionManager.activeStatus c1BadSessionC.status := by
  exact ⟨c1BadState_reachable, by decide, by decide, by decide, by decide, by decide⟩

lemma decode_encode_shape (c : Nat) (r : List Nat)
    (hr : 1 + r.length < 256) :
    NdefUrlRecord.decode ([0xD1, 1, (1 + r.length) % 256, 0x55] ++ (c :: r)) =
      some (NdefUrlRecord.decodePrefixMap c ++ r) := by
  have hm : (1 + r.length) % 256 = 1 + r.length := Nat.mod_eq_of_lt hr
  unfold NdefUrlRecord.decode
  simp only [List.cons_append, List.nil_append, List.length_cons, hm]
  rw [if_neg (by omega)]
  simp only [List.getD, List.get?_cons_succ, List.get?_cons_zero, Option.getD_some]
  rw [if_neg (by omega)]
  simp only [List.drop_succ_cons, List.drop_zero]
  rw [if_neg (by simp)]
  have htake : List.take (1 + r.length) (c :: r) = c :: r := by
    rw [show 1 + r.length = (c :: r).length from by simp [Nat.add_comm]]
    exact List.take_length _
  rw [htake]
  simp only [List.head?_cons, List.drop_one, List.tail_cons]

lemma prefixes_code_le4 (p : List Nat) (c : Nat)
    (hmem : (p, c) ∈ NdefUrlRecord.prefixes) (hc : c ≤ 4) :
    NdefUrlRecord.decodePrefixMap c = p := by
  fin_cases hmem <;> first | rfl | exact absurd hc (by decide)

/-- C4 (amended): the decode/encode round trip holds exactly on the
URLs whose first matching table entry (in insertion order) has one of
the codes `decode` knows — 0x00 (no prefix) through 0x04 — and whose
remainder keeps the payload length within one byte: for such URLs,
`decode (encode u) = u`.  (For every other abbreviation code, `decode`'s
truncated `prefixMap` falls back to the empty prefix and the round trip
fails, see the counterexample.) -/
theorem c4_roundtrip_low_codes (u : List Nat) (c : Nat) (r : List Nat)
    (hf : NdefUrlRecord.findPrefix u = (c, r)) (hc : c ≤ 4)
    (hr : r.length ≤ 254) :
    NdefUrlRecord.decode (NdefUrlRecord.encode u) = some u := by
  have henc : NdefUrlRecord.encode u =
      [0xD1, 1, (1 + r.length) % 256, 0x55] ++ (c % 256 :: r) := by
    unfold NdefUrlRecord.encode
    rw [hf]
  have hc256 : c % 256 = c := Nat.mod_eq_of_lt (by omega)
  rw [henc, hc256, decode_encode_shape c r (by omega)]
  unfold NdefUrlRecord.findPrefix at hf
  cases hfind : NdefUrlRecord.prefixes.find? (fun pc => pc.1.isPrefixOf u) with
  | none =>
      rw [hfind] at hf
      injection hf with h1 h2
      subst h1
      subst h2
      simp [NdefUrlRecord.decodePrefixMap]
  | some pc =>
      rw [hfind] at hf
      injection hf with h1 h2
      have hpc : pc.1.isPrefixOf u := by
        have := List.find?_some hfind
        simpa using this
      have hmem : pc ∈ NdefUrlRecord.prefixes := List.mem_of_find?_eq_some hfind
      obtain ⟨t, ht⟩ := List.isPrefixOf_iff_prefix.mp hpc
      have hrt : r = t := by
        rw [← h2, ← ht, List.drop_left]
      have hdp : NdefUrlRecord.decodePrefixMap c = pc.1 := by
        refine prefixes_code_le4 pc.1 c ?_ hc
        rw [← h1]
        exact hmem
      rw [hdp, hrt, ht]

/-- C4 counterexample: for the URL `'tel:123'` the encoder abbreviates
with code 0x05, which `decode`'s prefix map does not contain, so the
round trip loses the `'tel:'` prefix: `decode (encode u)` returns
`'123'`, not `u`. -/
theorem c4_counterexample :
    NdefUrlRecord.decode (NdefUrlRecord.encode (asciiBytes "tel:123")) =
      some (asciiBytes "123") ∧
    some (asciiBytes "123") ≠ some (asciiBytes "tel:123") := by
  exact ⟨by decide, by decide⟩

/-- C4 witness: the round-trip theorem applied to the concrete URL
`'https://example.com/r/abc'` (matched prefix `'https://'`, code 0x04,
17-byte remainder). -/
theorem c4_witness :
    NdefUrlRecord.decode (NdefUrlRecord.encode (asciiBytes "https://example.com/r/abc")) =
      some (asciiBytes "https://example.com/r/abc") := by
  exact c4_roundtrip_low_codes (asciiBytes "https://example.com/r/abc") 0x04
    (asciiBytes "example.com/r/abc") (by decide) (by decide) (by decide)

/-- C3 (amended): the encoder selects the FIRST matching prefix in the
table's insertion order, not the longest match.  For the http/https
family the two orders coincide (longer variants are listed first), but
for the `urn:` family they do not: every URL beginning with
`'urn:epc:id:'` is matched by the earlier, shorter entry `'urn:'` and
encoded with code 0x13 — not 0x1e — with only `'urn:'` stripped.  When
no table prefix matches, code 0x00 is used with the full URL. -/
theorem c3_first_match_in_insertion_order :
    (∀ t : List Nat,
        NdefUrlRecord.encode (asciiBytes "urn:epc:id:" ++ t) =
          [0xD1, 1, (1 + (asciiBytes "epc:id:" ++ t).length) % 256, 0x55, 0x13] ++
            (asciiBytes "epc:id:" ++ t)) ∧
    (∀ u : List Nat,
        NdefUrlRecord.prefixes.find? (fun pc => pc.1.isPrefixOf u) = none →
        NdefUrlRecord.encode u = [0xD1, 1, (1 + u.length) % 256, 0x55, 0x00] ++ u) := by
  constructor
  · intro t
    unfold NdefUrlRecord.encode NdefUrlRecord.findPrefix
    rw [show List.find? (fun pc => pc.1.isPrefixOf (asciiBytes "urn:epc:id:" ++ t))
          NdefUrlRecord.prefixes = some (asciiBytes "urn:", 0x13) from rfl]
    rfl
  · intro u h
    unfold NdefUrlRecord.encode NdefUrlRecord.findPrefix
    rw [h]
    rfl

/-- C3 counterexample: the URL `'urn:epc:id:x'` starts with the table
prefix `'urn:epc:id:'` (code 0x1e), but the encoder emits abbreviation
code 0x13 (`'urn:'`), so the longest matching prefix is not honoured. -/
theorem c3_counterexample :
    (NdefUrlRecord.encode (asciiBytes "urn:epc:id:x")).getD 4 0 = 0x13 ∧
    (asciiBytes "urn:epc:id:", 0x1e) ∈ NdefUrlRecord.prefixes ∧
    (asciiBytes "urn:epc:id:").isPrefixOf (asciiBytes "urn:epc:id:x") = true ∧
    (0x13 : Nat) ≠ 0x1e := by
  refine ⟨by decide, by decide, by decide, by decide⟩

/-- C3 witness: the no-match clause of the amended theorem applied to
the one-byte URL `'z'`, which starts with no table prefix. -/
theorem c3_witness :
    NdefUrlRecord.encode [122] =
      [0xD1, 1, (1 + ([122] : List Nat).length) % 256, 0x55, 0x00] ++ [122] := by
  exact c3_first_match_in_insertion_order.2 [122] (by decide)

namespace PN532Service

lemma extractAux_congr (n : Nat) :
    ∀ b : List Nat, b.length ≤ n → ∀ f₁ f₂ : Nat, b.length ≤ f₁ → b.length ≤ f₂ →
      extractAux f₁ b = extractAux f₂ b := by
  induction n with
  | zero =>
      intro b hb f₁ f₂ h₁ h₂
      have hnil : b = [] := List.eq_nil_of_length_eq_zero (by omega)
      subst hnil
      cases f₁ <;> cases f₂ <;> simp [extractAux]
  | succ n ih =>
      intro b hb f₁ f₂ h₁ h₂
      by_cases h8 : b.length < 8
      · cases f₁ <;> cases f₂ <;> simp [extractAux, h8]
      · obtain ⟨g₁, rfl⟩ : ∃ g, f₁ = g + 1 := ⟨f₁ - 1, by omega⟩
        obtain ⟨g₂, rfl⟩ : ∃ g, f₂ = g + 1 := ⟨f₂ - 1, by omega⟩
        simp only [extractAux, h8, if_false]
        cases hh : findHeader b with
        | none => rfl
        | some off =>
            dsimp only
            repeat' split
            all_goals
              first
                | rfl
                | (apply ih <;> (simp only [List.length_drop]; omega))

/-- Any fuel at least the buffer's length computes `extractResponseFrame`. -/
lemma extractAux_eq_of_le (f : Nat) (b : List Nat) (h : b.length ≤ f) :
    extractAux f b = extractResponseFrame b :=
  extractAux_congr b.length b le_rfl f b.length h le_rfl

end PN532Service

namespace PN532Service

lemma extractAux_succ_header (g : Nat) (rest : List Nat)
    (h8 : ¬ (0x00 :: 0x00 :: 0xFF :: rest : List Nat).length < 8) :
    extractAux (g + 1) (0x00 :: 0x00 :: 0xFF :: rest) =
      (let b : List Nat := 0x00 :: 0x00 :: 0xFF :: rest
       if (b.getD 3 0 + b.getD 4 0) % 256 ≠ 0 then
         extractAux g (b.drop 3)
       else if b.length < 5 + b.getD 3 0 + 2 then (none, b)
       else if (256 - ((b.drop 5).take (b.getD 3 0)).sum % 256) % 256 ≠
           b.getD (5 + b.getD 3 0) 0 then
         extractAux g (b.drop 3)
       else if ((b.drop 5).take (b.getD 3 0)).head? ≠ some 0xD5 then
         extractAux g (b.drop (5 + b.getD 3 0 + 2))
       else (some (((b.drop 5).take (b.getD 3 0)).drop 1),
             b.drop (5 + b.getD 3 0 + 2))) := by
  have hfh : findHeader (0x00 :: 0x00 :: 0xFF :: rest) = some 0 := rfl
  have h5 : ¬ (0x00 :: 0x00 :: 0xFF :: rest : List Nat).length < 5 := by
    simp only [List.length_cons] at h8 ⊢
    omega
  simp only [extractAux, h8, if_false, hfh, List.drop_zero, h5]

end PN532Service

/-- C7 (amended): the resynchronisation policy of
`extractResponseFrame` is: on a `00 00 FF` header whose LENGTH checksum
or DATA checksum fails, exactly the three bytes at the current
start-of-frame are dropped and the search resumes; but on an invalid
TFI byte the ENTIRE frame (`5 + len + 2` bytes) is dropped, not three;
and when no header is found in a buffer of at least 8 bytes, everything
except the last two buffered bytes is discarded (a buffer shorter than
8 bytes is left untouched by the early-return, so the keep-last-two rule
only applies from 8 bytes up). -/
theorem c7_resync_policy :
    (∀ (b rest : List Nat), b = 0x00 :: 0x00 :: 0xFF :: rest →
        8 ≤ b.length →
        (b.getD 3 0 + b.getD 4 0) % 256 ≠ 0 →
        PN532Service.extractResponseFrame b =
          PN532Service.extractResponseFrame (b.drop 3)) ∧
    (∀ (b rest : List Nat), b = 0x00 :: 0x00 :: 0xFF :: rest →
        8 ≤ b.length →
        (b.getD 3 0 + b.getD 4 0) % 256 = 0 →
        ¬ b.length < 5 + b.getD 3 0 + 2 →
        (256 - ((b.drop 5).take (b.getD 3 0)).sum % 256) % 256 ≠
          b.getD (5 + b.getD 3 0) 0 →
        PN532Service.extractResponseFrame b =
          PN532Service.extractResponseFrame (b.drop 3)) ∧
    (∀ (b rest : List Nat), b = 0x00 :: 0x00 :: 0xFF :: rest →
        8 ≤ b.length →
        (b.getD 3 0 + b.getD 4 0) % 256 = 0 →
        ¬ b.length < 5 + b.getD 3 0 + 2 →
        (256 - ((b.drop 5).take (b.getD 3 0)).sum % 256) % 256 =
          b.getD (5 + b.getD 3 0) 0 →
        ((b.drop 5).take (b.getD 3 0)).head? ≠ some 0xD5 →
        PN532Service.extractResponseFrame b =
          PN532Service.extractResponseFrame (b.drop (5 + b.getD 3 0 + 2))) ∧
    (∀ b : List Nat, PN532Service.findHeader b = none → 8 ≤ b.length →
        PN532Service.extractResponseFrame b = (none, b.drop (b.length - 2))) := by
  refine ⟨?_, ?_, ?_, ?_⟩
  · intro b rest hb h8 hlcs
    subst hb
    have h8' : ¬ (0x00 :: 0x00 :: 0xFF :: rest : List Nat).length < 8 := by omega
    unfold PN532Service.extractResponseFrame
    conv_lhs =>
      rw [show (0x00 :: 0x00 :: 0xFF :: rest : List Nat).length =
            (rest.length + 2) + 1 from by simp only [List.length_cons]]
    rw [PN532Service.extractAux_succ_header (rest.length + 2) rest h8']
    simp only [hlcs, ne_eq, not_false_eq_true, if_true]
    apply PN532Service.extractAux_eq_of_le
    simp only [List.length_drop, List.length_cons]
    omega
  · intro b rest hb h8 hlcs htot hdcs
    subst hb
    have h8' : ¬ (0x00 :: 0x00 :: 0xFF :: rest : List Nat).length < 8 := by omega
    unfold PN532Service.extractResponseFrame
    conv_lhs =>
      rw [show (0x00 :: 0x00 :: 0xFF :: rest : List Nat).length =
            (rest.length + 2) + 1 from by simp only [List.length_cons]]
    rw [PN532Service.extractAux_succ_header (rest.length + 2) rest h8']
    simp only [hlcs, ne_eq, not_true_eq_false, if_false, htot,
      hdcs, not_false_eq_true, if_true]
    apply PN532Service.extractAux_eq_of_le
    simp only [List.length_drop, List.length_cons]
    omega
  · intro b rest hb h8 hlcs htot hdcs htfi
    subst hb
    have h8' : ¬ (0x00 :: 0x00 :: 0xFF :: rest : List Nat).length < 8 := by omega
    unfold PN532Service.extractResponseFrame
    conv_lhs =>
      rw [show (0x00 :: 0x00 :: 0xFF :: rest : List Nat).length =
            (rest.length + 2) + 1 from by simp only [List.length_cons]]
    rw [PN532Service.extractAux_succ_header (rest.length + 2) rest h8']
    simp only [hlcs, ne_eq, not_true_eq_false, if_false, htot,
      hdcs, htfi, not_false_eq_true, if_true]
    apply PN532Service.extractAux_eq_of_le
    simp only [List.length_drop, List.length_cons]
    omega
  · intro b hh h8
    have h8' : ¬ b.length < 8 := by omega
    unfold PN532Service.extractResponseFrame
    conv_lhs => rw [show b.length = (b.length - 1) + 1 from by omega]
    simp only [PN532Service.extractAux, h8', if_false, hh]
    rw [if_pos (by omega)]

/-- C7 counterexample: the buffer `00 00 FF 01 FF D6 2A 00` carries a
header at the start with both checksums valid but TFI byte 0xD6: the
extractor drops the whole 8-byte frame (buffer afterwards empty),
whereas dropping exactly three bytes and searching again would leave
`01 FF D6 2A 00` (five bytes, untouched by the renewed search).
Moreover, a 4-byte header-less buffer is left whole, not trimmed to its
last two bytes. -/
theorem c7_counterexample :
    (([0x00, 0x00, 0xFF, 0x01, 0xFF, 0xD6, 0x2A, 0x00] : List Nat).getD 3 0 +
       ([0x00, 0x00, 0xFF, 0x01, 0xFF, 0xD6, 0x2A, 0x00] : List Nat).getD 4 0) % 256 = 0 ∧
    ((([0x00, 0x00, 0xFF, 0x01, 0xFF, 0xD6, 0x2A, 0x00] : List Nat).drop 5).take 1).head? =
      some 0xD6 ∧
    PN532Service.extractResponseFrame [0x00, 0x00, 0xFF, 0x01, 0xFF, 0xD6, 0x2A, 0x00] =
      (none, []) ∧
    PN532Service.extractResponseFrame
        (([0x00, 0x00, 0xFF, 0x01, 0xFF, 0xD6, 0x2A, 0x00] : List Nat).drop 3) =
      (none, [0x01, 0xFF, 0xD6, 0x2A, 0x00]) ∧
    ([] : List Nat) ≠ [0x01, 0xFF, 0xD6, 0x2A, 0x00] ∧
    PN532Service.extractResponseFrame [1, 2, 3, 4] = (none, [1, 2, 3, 4]) ∧
    PN532Service.findHeader [1, 2, 3, 4] = none ∧ ([1, 2, 3, 4] : List Nat).length > 2 := by
  decide

/-- C7 witness: the length-checksum clause of the amended theorem
applied to the concrete buffer `00 00 FF 01 00 00 00 00` (checksum
`(1 + 0) % 256 ≠ 0`): the extractor behaves as on the buffer with the
three header bytes dropped. -/
theorem c7_witness :
    PN532Service.extractResponseFrame [0x00, 0x00, 0xFF, 0x01, 0x00, 0x00, 0x00, 0x00] =
      PN532Service.extractResponseFrame
        (([0x00, 0x00, 0xFF, 0x01, 0x00, 0x00, 0x00, 0x00] : List Nat).drop 3) := by
  exact c7_resync_policy.1 [0x00, 0x00, 0xFF, 0x01, 0x00, 0x00, 0x00, 0x00]
    [0x01, 0x00, 0x00, 0x00, 0x00] rfl (by decide) (by decide)

/-- A concrete session for the C8 witness: `completed` and past its
`expires_at`. -/
def c8WitnessSession : NfcSession :=
  ⟨"a", "o1", "https://abc.com", .completed, 0, 5, some 4, none⟩

/-- C8 witness: the reaper characterisation applied at time 10 to a map
holding one completed session that expired at 5. -/
theorem c8_witness :
    (("a", c8WitnessSession) ∉ SessionManager.cleanupExpiredSessions 10
        [("a", c8WitnessSession)]) ↔
      (10 > ("a", c8WitnessSession).2.expiresAt ∧
       (("a", c8WitnessSession).2.status = .completed ∨
        ("a", c8WitnessSession).2.status = .failed ∨
        ("a", c8WitnessSession).2.status = .expired)) := by
  exact c8_reaper_removes_exactly_terminal_expired 10 [("a", c8WitnessSession)]
    ("a", c8WitnessSession) (by decide)
